import Mathlib

/-!
Verification development for the context-menu-manager repository.

The Python modules are shallowly embedded:
  src/config.py            -> namespace AppConfig
  src/utils.py             -> SAFE_EXECUTABLES, DANGEROUS_PATTERNS, RESERVED_NAMES, ICON_EXTENSIONS
  src/core/security.py     -> validate_command, validate_name, validate_icon_path, sanitize_json_import
  src/core/compatibility.py-> check_registry_conflict, backup_registry_key, get_registry_base_path
  src/managers/menu.py     -> apply_shortcut, remove_shortcut, delRec
  src/models/database.py   -> update_system_applied, toggle_active, save_registry_backup

Strings are handled as lists of characters; Python whitespace handling,
str.split, str.strip and ntpath.basename are modelled for ASCII input
(the constants involved are all ASCII).  The Windows registry is modelled
as a finite tree of keys; registry paths are lists of key segments
(the engine always joins path fragments with a single backslash and the
validated names and scope tokens contain no separator, so the segment
view is faithful).  The filesystem, the clock and backend faults are
injected through small environment records.
-/

/-- Python str whitespace (ASCII part): the characters recognised by
str.split, str.strip and the regex class backslash-s. -/
def pyIsSpace (c : Char) : Bool :=
  c == ' ' || c == '\t' || c == '\n' || c == '\r' || c == '\x0b' || c == '\x0c'

/-- Accumulator form of Python str.split() with no arguments: split on runs
of whitespace, discarding empty pieces.  acc holds the current token
reversed. -/
def pySplitAux : List Char → List Char → List (List Char)
  | [], acc => if acc.isEmpty then [] else [acc.reverse]
  | c :: rest, acc =>
    if pyIsSpace c then
      if acc.isEmpty then pySplitAux rest [] else acc.reverse :: pySplitAux rest []
    else pySplitAux rest (c :: acc)

/-- Python command.split(): whitespace-delimited tokens. -/
def pySplit (s : List Char) : List (List Char) :=
  pySplitAux s []

/-- Python tok.strip(chr(34)): remove leading and trailing double quotes. -/
def stripQuotes (s : List Char) : List Char :=
  ((s.dropWhile (fun c => c == '"')).reverse.dropWhile (fun c => c == '"')).reverse

/-- Windows path separators accepted by ntpath. -/
def isSep (c : Char) : Bool := c == '\\' || c == '/'

/-- Model of os.path.basename on Windows (ntpath.basename): the part after
the last separator; with no separator, a leading drive spec of the form
letter-colon is removed first. -/
def ntBasename (s : List Char) : List Char :=
  if s.any isSep then (s.reverse.takeWhile (fun c => !(isSep c))).reverse
  else
    match s with
    | _ :: b :: rest => if b == ':' then rest else s
    | _ => s

/-- Model of os.path.isabs on Windows: strip a drive-letter prefix, then
test whether the remainder starts with a separator. -/
def ntIsAbs (s : List Char) : Bool :=
  let r := match s with
           | _ :: b :: rest => if b == ':' then rest else s
           | _ => s
  match r with
  | c :: _ => isSep c
  | [] => false

/-- Model of os.path.splitext restricted to the extension component: the
suffix of the basename starting at its last dot, provided some earlier
character of the basename is not a dot (ntpath gives leading dots no
extension). -/
def splitextExt (s : List Char) : List Char :=
  let base := (s.reverse.takeWhile (fun c => !(isSep c))).reverse
  let rev := base.reverse
  let afterDot := rev.takeWhile (fun c => !(c == '.'))
  if afterDot.length == rev.length then []
  else
    let beforeDot := rev.drop (afterDot.length + 1)
    if beforeDot.any (fun c => !(c == '.')) then '.' :: afterDot.reverse
    else []

namespace AppConfig

/-- config.py MAX_COMMAND_LENGTH. -/
def MAX_COMMAND_LENGTH : Nat := 2000

/-- config.py MAX_NAME_LENGTH. -/
def MAX_NAME_LENGTH : Nat := 100

/-- config.py MAX_ICON_SIZE_MB. -/
def MAX_ICON_SIZE_MB : Nat := 10

/-- config.py MAX_IMPORT_COUNT. -/
def MAX_IMPORT_COUNT : Nat := 1000

end AppConfig

/-- utils.py SAFE_EXECUTABLES (a Python set; only membership is used). -/
def SAFE_EXECUTABLES : List String :=
  ["notepad.exe", "code.exe", "cmd.exe", "powershell.exe", "explorer.exe",
   "mspaint.exe", "calc.exe", "wordpad.exe", "python.exe", "pythonw.exe",
   "git.exe", "vim.exe"]

/-- utils.py RESERVED_NAMES. -/
def RESERVED_NAMES : List String :=
  ["CON", "PRN", "AUX", "NUL",
   "COM1", "COM2", "COM3", "COM4", "COM5", "COM6", "COM7", "COM8", "COM9",
   "LPT1", "LPT2", "LPT3", "LPT4", "LPT5", "LPT6", "LPT7", "LPT8", "LPT9"]

/-- utils.py ICON_EXTENSIONS. -/
def ICON_EXTENSIONS : List String := [".ico", ".exe", ".dll"]

/-- One component of a dangerous-pattern regular expression.  The ten
patterns of utils.py use only: literals, the class backslash-s with plus,
dot-star, the class bracket-A-dash-Z-bracket (under IGNORECASE), and one
negative lookahead. -/
inductive Comp where
  | lit : List Char → Comp
  | ws1 : Comp
  | anystar : Comp
  | alphaLower : Comp
  | notLit : List Char → Comp

/-- Backtracking matcher for a component list against a prefix of the
input.  Matching is performed on lowercased text, which models
re.IGNORECASE for the ASCII patterns at hand; alphaLower is the class
A-to-Z under IGNORECASE, i.e. any ASCII letter of the lowercased text.
Fuel only bounds the recursion: every step strictly decreases the number
of remaining components plus remaining characters, so the fuel supplied
by searchComps is always sufficient. -/
def matchComps : Nat → List Comp → List Char → Bool
  | 0, _, _ => false
  | _ + 1, [], _ => true
  | fuel + 1, Comp.lit l :: cs, s =>
    l.isPrefixOf s && matchComps fuel cs (s.drop l.length)
  | fuel + 1, Comp.ws1 :: cs, s =>
    match s with
    | c :: rest => pyIsSpace c && (matchComps fuel cs rest || matchComps fuel (Comp.ws1 :: cs) rest)
    | [] => false
  | fuel + 1, Comp.anystar :: cs, s =>
    matchComps fuel cs s ||
      (match s with
       | c :: rest => !(c == '\n') && matchComps fuel (Comp.anystar :: cs) rest
       | [] => false)
  | fuel + 1, Comp.alphaLower :: cs, s =>
    match s with
    | c :: rest => ('a' ≤ c && c ≤ 'z') && matchComps fuel cs rest
    | [] => false
  | fuel + 1, Comp.notLit l :: cs, s =>
    !(l.isPrefixOf s) && matchComps fuel cs s

/-- re.search semantics: try to match at every starting position. -/
def searchComps (cs : List Comp) : List Char → Bool
  | [] => matchComps (cs.length + 1) cs []
  | s@(_ :: rest) => matchComps (cs.length + s.length + 1) cs s || searchComps cs rest

/-- Literal component from a string (the pattern text is already
lowercase). -/
def litS (s : String) : Comp := Comp.lit s.toList

/-- utils.py DANGEROUS_PATTERNS, with top-level alternations expanded into
separate component lists (search succeeds iff one alternative does). -/
def DANGEROUS_PATTERNS : List (List Comp) :=
  [ [litS "del", Comp.ws1, Comp.alphaLower, litS ":\\"],
    [litS "rd", Comp.ws1, Comp.alphaLower, litS ":\\"],
    [litS "rmdir", Comp.ws1, Comp.alphaLower, litS ":\\"],
    [litS "format", Comp.ws1, Comp.alphaLower, litS ":\\"],
    [litS "shutdown"],
    [litS "restart"],
    [litS "reg", Comp.ws1, litS "delete"],
    [litS "taskkill", Comp.ws1, litS "/f", Comp.ws1, litS "/im", Comp.ws1,
     Comp.notLit "explorer.exe".toList],
    [litS "powershell", Comp.anystar, litS "-encodedcommand", Comp.anystar, litS "remove"],
    [litS "powershell", Comp.anystar, litS "-command", Comp.anystar, litS "remove"],
    [litS "net", Comp.ws1, litS "user", Comp.anystar, litS "delete"],
    [litS "net", Comp.ws1, litS "localgroup", Comp.anystar, litS "delete"],
    [litS "wmic", Comp.anystar, litS "delete"],
    [litS "bcdedit"],
    [litS "diskpart"],
    [litS "cipher", Comp.ws1, litS "/w"] ]

/-- security.py lines 45-47: some dangerous pattern matches the command
under re.IGNORECASE. -/
def dangerous_command (command : String) : Bool :=
  let s := command.toList.map Char.toLower
  DANGEROUS_PATTERNS.any (fun p => searchComps p s)

/-- The null character tested at security.py line 41. -/
def nulChar : Char := '\x00'

/-- security.py line 41: chr(0) occurs in the command. -/
def has_null (command : String) : Bool := command.toList.contains nulChar

/-- security.py line 50 and 117: the string starts with two backslashes
(a UNC network prefix). -/
def is_network_path (command : String) : Bool :=
  match command.toList with
  | a :: b :: _ => a == '\\' && b == '\\'
  | _ => false

/-- security.py line 56: basename of the first token with surrounding
quotes stripped, lowercased. -/
def exe_name_of_token (tok : List Char) : String :=
  String.mk ((ntBasename (stripQuotes tok)).map Char.toLower)

/-- The exe name that validate_command derives from the first
whitespace-delimited token, when the command has one. -/
def first_token_exe_name (command : String) : Option String :=
  match pySplit command.toList with
  | [] => none
  | tok :: _ => some (exe_name_of_token tok)

/-- The filesystem facts consulted by the validators: os.path.exists and
os.path.getsize (none models an OSError). -/
structure FileSystem where
  pathExists : String → Bool
  getSize : String → Option Nat

/-- security.py validate_command (lines 22-68).  Messages are abbreviated
English tags; the source returns Japanese text with the same branch
structure.  The test `not command or not command.strip()` is rendered as
"every character is whitespace" (true for the empty string as well). -/
def validate_command (fs : FileSystem) (command : String) : Bool × String :=
  if command.toList.all pyIsSpace then (false, "empty_command")
  else if command.length > AppConfig.MAX_COMMAND_LENGTH then (false, "command_too_long")
  else if has_null command then (false, "null_byte")
  else if dangerous_command command then (false, "dangerous_pattern")
  else if is_network_path command then (false, "network_path")
  else
    match pySplit command.toList with
    | [] => (true, "OK")
    | tok :: _ =>
      let exe_name := exe_name_of_token tok
      if exe_name ≠ "" ∧ SAFE_EXECUTABLES.any (fun safe => exe_name == safe) = false then
        let exe_path := stripQuotes tok
        if ntIsAbs exe_path then
          if fs.pathExists (String.mk exe_path) = false then (false, "exe_not_found")
          else (true, "OK")
        else (false, "not_whitelisted")
      else (true, "OK")

/-- security.py line 90: the characters forbidden in shortcut names, in
source order. -/
def INVALID_NAME_CHARS : List Char := ['<', '>', ':', '"', '/', '\\', '|', '?', '*']

/-- security.py validate_name (lines 71-99). -/
def validate_name (name : String) : Bool × String :=
  if name.toList.all pyIsSpace then (false, "empty_name")
  else if name.length > AppConfig.MAX_NAME_LENGTH then (false, "name_too_long")
  else
    match INVALID_NAME_CHARS.find? (fun ch => name.toList.contains ch) with
    | some _ => (false, "invalid_char")
    | none =>
      if RESERVED_NAMES.contains (String.mk (name.toList.map Char.toUpper)) then
        (false, "reserved_name")
      else (true, "OK")

/-- security.py validate_icon_path (lines 102-137).  The float comparison
size divided by 1024*1024 greater than MAX_ICON_SIZE_MB is rendered
exactly over naturals. -/
def validate_icon_path (fs : FileSystem) (path : String) : Bool × String :=
  if path = "" then (true, "OK")
  else if is_network_path path then (false, "network_path")
  else if fs.pathExists path = false then (false, "file_not_found")
  else if ICON_EXTENSIONS.contains (String.mk ((splitextExt path.toList).map Char.toLower)) = false then
    (false, "bad_extension")
  else
    match fs.getSize path with
    | none => (false, "size_error")
    | some sz =>
      if sz > AppConfig.MAX_ICON_SIZE_MB * 1024 * 1024 then (false, "file_too_large")
      else (true, "OK")

/-- One registry value: data plus the winreg type tag (REG_SZ = 1 for
everything this program writes). -/
structure RegValue where
  data : String
  vtype : Nat
deriving DecidableEq

/-- The HKEY_CURRENT_USER hive as a finite tree: named values and named
subkeys.  Key paths are lists of segments. -/
inductive RegTree where
  | node : List (String × RegValue) → List (String × RegTree) → RegTree

/-- The values stored directly at a key. -/
def RegTree.values : RegTree → List (String × RegValue)
  | node vs _ => vs

/-- The immediate subkeys of a key. -/
def RegTree.children : RegTree → List (String × RegTree)
  | node _ cs => cs

/-- First subkey with the given name. -/
def lookupChild : List (String × RegTree) → String → Option RegTree
  | [], _ => none
  | (n, t) :: rest, s => if n = s then some t else lookupChild rest s

/-- Replace every subkey entry with the given name. -/
def replaceChild : List (String × RegTree) → String → RegTree → List (String × RegTree)
  | [], _, _ => []
  | (n, t) :: rest, s, c =>
    if n = s then (n, c) :: replaceChild rest s c else (n, t) :: replaceChild rest s c

/-- Navigate to the key at a path (winreg.OpenKey; none is
FileNotFoundError). -/
def getKey : RegTree → List String → Option RegTree
  | t, [] => some t
  | t, s :: rest =>
    match lookupChild t.children s with
    | some c => getKey c rest
    | none => none

/-- winreg.CreateKeyEx: ensure the key at the path exists, creating
missing intermediate keys. -/
def createKey : RegTree → List String → RegTree
  | t, [] => t
  | t, s :: rest =>
    match lookupChild t.children s with
    | some c => RegTree.node t.values (replaceChild t.children s (createKey c rest))
    | none => RegTree.node t.values (t.children ++ [(s, createKey (RegTree.node [] []) rest)])

/-- Set a value in a value list: replace the first entry with that name or
append (Python dict update order). -/
def setVal : List (String × RegValue) → String → RegValue → List (String × RegValue)
  | [], n, v => [(n, v)]
  | (m, w) :: rest, n, v =>
    if m = n then (m, v) :: rest else (m, w) :: setVal rest n v

/-- winreg.SetValueEx through a handle obtained from CreateKeyEx; if the
key is missing (never the case after createKey) the store is left
unchanged. -/
def setValue : RegTree → List String → String → RegValue → RegTree
  | t, [], n, v => RegTree.node (setVal t.values n v) t.children
  | t, s :: rest, n, v =>
    match lookupChild t.children s with
    | some c => RegTree.node t.values (replaceChild t.children s (setValue c rest n v))
    | none => t

/-- First value with the given name at a key. -/
def lookupVal : List (String × RegValue) → String → Option RegValue
  | [], _ => none
  | (n, v) :: rest, s => if n = s then some v else lookupVal rest s

/-- winreg.OpenKey followed by winreg.QueryValueEx: none when either the
key or the value is absent. -/
def queryValue (t : RegTree) (path : List String) (vname : String) : Option RegValue :=
  match getKey t path with
  | some k => lookupVal k.values vname
  | none => none

/-- compatibility.py get_registry_base_path (lines 137-157), as path
segments.  The scope tokens used by the program contain no backslash. -/
def get_registry_base_path (target_type : String) : List String :=
  if (match target_type.toList with | c :: _ => c == '.' | [] => false) then
    ["Software", "Classes", target_type, "shell"]
  else if target_type = "all_files" then ["Software", "Classes", "*", "shell"]
  else if target_type = "folder" then ["Software", "Classes", "Directory", "shell"]
  else if target_type = "background" then ["Software", "Classes", "Directory", "Background", "shell"]
  else ["Software", "Classes", "*", "shell"]

/-- compatibility.py check_registry_conflict (lines 62-87): read the
default value of base-path, name, command; FileNotFoundError (missing key
or missing value) and any other backend error both report not-found. -/
def check_registry_conflict (reg : RegTree) (name target_type : String) : Bool × Option String :=
  match queryValue reg (get_registry_base_path target_type ++ [name, "command"]) "" with
  | some v => (true, some v.data)
  | none => (false, none)

/-- The backup produced by compatibility.py backup_registry_key: path,
value mapping, and the datetime.now().isoformat() capture instant. -/
structure RegistryKeyBackup where
  path : List String
  values : List (String × RegValue)
  timestamp : String
deriving DecidableEq

/-- Environment of backup_registry_key: the clock reading and fault
injection for a non-FileNotFoundError backend failure while reading the
key (the generic except branch at compatibility.py lines 132-134). -/
structure BackupEnv where
  now : String
  openFails : List String → Bool

/-- compatibility.py backup_registry_key (lines 89-134): snapshot all
values of the key.  A missing key yields an empty backup; any other
backend error logs a warning and yields none. -/
def backup_registry_key (benv : BackupEnv) (reg : RegTree) (key_path : List String) :
    Option RegistryKeyBackup :=
  if benv.openFails key_path then none
  else
    match getKey reg key_path with
    | none => some ⟨key_path, [], benv.now⟩
    | some k => some ⟨key_path, k.values, benv.now⟩

/-- database.py save_registry_backup (lines 248-265): INSERT the backup
row.  On a database error the transaction is rolled back and the
exception is swallowed (logged only), so the ledger is unchanged and the
caller cannot observe the failure; saveOk injects that failure. -/
def save_registry_backup (saveOk : Bool) (backups : List (String × RegistryKeyBackup))
    (name : String) (backup_data : RegistryKeyBackup) : List (String × RegistryKeyBackup) :=
  if saveOk then backups ++ [(name, backup_data)] else backups

/-- The registry mutation performed by the success path of
menu.py apply_shortcut (lines 217-238): create the menu key, set the
optional Icon value, create the command subkey and set its default value
to the command string (REG_SZ). -/
def apply_mutation (reg : RegTree) (name command target_type icon_path : String) : RegTree :=
  let menu_key_path := get_registry_base_path target_type ++ [name]
  let reg1 := createKey reg menu_key_path
  let reg2 := if icon_path ≠ "" then setValue reg1 menu_key_path "Icon" ⟨icon_path, 1⟩ else reg1
  let reg3 := createKey reg2 (menu_key_path ++ ["command"])
  setValue reg3 (menu_key_path ++ ["command"]) "" ⟨command, 1⟩

/-- The backup step of menu.py apply_shortcut (lines 211-215): when a
database is supplied, snapshot the menu key path and, if the snapshot is
not None (the dict is always truthy), hand it to the ledger. -/
def apply_backups (benv : BackupEnv) (saveOk : Bool) (reg : RegTree)
    (backups : List (String × RegistryKeyBackup)) (hasDb : Bool) (name target_type : String) :
    List (String × RegistryKeyBackup) :=
  if hasDb then
    match backup_registry_key benv reg (get_registry_base_path target_type ++ [name]) with
    | some backup_data => save_registry_backup saveOk backups name backup_data
    | none => backups
  else backups

/-- The outcome of apply_shortcut: the (success, message) pair returned by
the source plus the registry and ledger-backup state it leaves behind. -/
structure ApplyResult where
  ok : Bool
  msg : String
  reg : RegTree
  backups : List (String × RegistryKeyBackup)

/-- menu.py apply_shortcut (lines 172-243): validate name, command and
optional icon, check for a conflict, back up the target subtree, then
mutate the registry. -/
def apply_shortcut (benv : BackupEnv) (saveOk : Bool) (fs : FileSystem) (reg : RegTree)
    (backups : List (String × RegistryKeyBackup)) (hasDb : Bool)
    (name command target_type icon_path : String) : ApplyResult :=
  if (validate_name name).1 = false then ⟨false, "name_error", reg, backups⟩
  else if (validate_command fs command).1 = false then ⟨false, "command_error", reg, backups⟩
  else if icon_path ≠ "" ∧ (validate_icon_path fs icon_path).1 = false then
    ⟨false, "icon_error", reg, backups⟩
  else if (check_registry_conflict reg name target_type).1 = true then
    ⟨false, "already_exists", reg, backups⟩
  else
    ⟨true, "applied", apply_mutation reg name command target_type icon_path,
     apply_backups benv saveOk reg backups hasDb name target_type⟩

/-- Remove every subkey entry with the given name from a value of
children. -/
def removeChildEntry : List (String × RegTree) → String → List (String × RegTree)
  | [], _ => []
  | (n, t) :: rest, s =>
    if n = s then removeChildEntry rest s else (n, t) :: removeChildEntry rest s

/-- Delete the key at the path (winreg.DeleteKey once the key has no
subkeys); leaves the tree unchanged when the path is missing. -/
def removeKeyAt : RegTree → List String → RegTree
  | t, [] => t
  | t, [s] => RegTree.node t.values (removeChildEntry t.children s)
  | t, s :: s2 :: rest =>
    match lookupChild t.children s with
    | some c => RegTree.node t.values (replaceChild t.children s (removeKeyAt c (s2 :: rest)))
    | none => t

/-- menu.py _delete_registry_key_recursive (lines 130-170): enumerate the
subkeys, recurse into each (result ignored, as in the source), then
DeleteKey.  A key missing at open or at delete time is a success
(FileNotFoundError branch); a key that still has subkeys makes DeleteKey
raise, caught by the generic branch as a failure.  Fuel only bounds the
recursion depth; remove_shortcut supplies enough for the whole tree. -/
def delRec : Nat → RegTree → List String → Bool × RegTree
  | 0, reg, _ => (false, reg)
  | fuel + 1, reg, key_path =>
    match getKey reg key_path with
    | none => (true, reg)
    | some k =>
      let reg1 := k.children.foldl (fun r c => (delRec fuel r (key_path ++ [c.1])).2) reg
      match getKey reg1 key_path with
      | none => (true, reg1)
      | some k1 =>
        match k1.children with
        | [] => (true, removeKeyAt reg1 key_path)
        | _ :: _ => (false, reg1)

mutual

/-- Number of keys in a registry tree (used only to supply delRec with
sufficient fuel). -/
def regSize : RegTree → Nat
  | RegTree.node _ cs => 1 + regSizeList cs

/-- Number of keys in a forest of subkeys. -/
def regSizeList : List (String × RegTree) → Nat
  | [] => 0
  | c :: rest => regSize c.2 + regSizeList rest

end

/-- menu.py remove_shortcut (lines 245-274): recursively delete the menu
key for the name under the scope base path. -/
def remove_shortcut (reg : RegTree) (name target_type : String) : Bool × String × RegTree :=
  let menu_key_path := get_registry_base_path target_type ++ [name]
  let r := delRec (regSize reg + 1) reg menu_key_path
  if r.1 then (true, "removed", r.2) else (false, "remove_failed", r.2)

/-- One row of the shortcuts table (models/database.py init_database).
The SQLite integer columns are carried as integers. -/
structure ShortcutRow where
  id : Nat
  name : String
  command : String
  target_type : String
  icon_path : String
  is_active : Int
  is_system_applied : Int
  apply_count : Int
deriving DecidableEq

/-- database.py update_system_applied (lines 163-182): one UPDATE setting
is_system_applied to the flag and adding the flag to apply_count, on
every row whose id matches. -/
def update_system_applied (db : List ShortcutRow) (shortcut_id : Nat) (applied : Bool) :
    List ShortcutRow :=
  db.map (fun r =>
    if r.id = shortcut_id then
      { r with
        is_system_applied := if applied then 1 else 0,
        apply_count := r.apply_count + (if applied then 1 else 0) }
    else r)

/-- database.py toggle_active (lines 223-246): UPDATE is_active to one
minus is_active on every row whose id matches, then return True
unconditionally. -/
def toggle_active (db : List ShortcutRow) (shortcut_id : Nat) : Bool × List ShortcutRow :=
  (true, db.map (fun r =>
    if r.id = shortcut_id then { r with is_active := 1 - r.is_active } else r))

/-- A JSON value as loaded by json.load for the import path. -/
inductive JVal where
  | jstr : String → JVal
  | jnum : Int → JVal
  | jbool : Bool → JVal
  | jnull : JVal
  | jarr : List JVal → JVal
  | jobj : List (String × JVal) → JVal

/-- Python truthiness of a JSON value. -/
def JVal.truthy : JVal → Bool
  | jstr s => !(s == "")
  | jnum n => !(n == 0)
  | jbool b => b
  | jnull => false
  | jarr l => !l.isEmpty
  | jobj l => !l.isEmpty

/-- Key lookup in a JSON object (dict keys are unique in Python; the
first binding wins). -/
def jget : List (String × JVal) → String → Option JVal
  | [], _ => none
  | (k, v) :: rest, s => if k = s then some v else jget rest s

/-- Python dict.get with a default. -/
def jgetD (fields : List (String × JVal)) (s : String) (d : JVal) : JVal :=
  match jget fields s with
  | some v => v
  | none => d

/-- validate_name applied to a raw JSON field, as sanitize_json_import
does (security.py line 178).  A falsy value short-circuits at
the test `not name` and is reported invalid; a truthy non-string raises
AttributeError at name.strip(), modelled as Except.error. -/
def validate_name_j (v : JVal) : Except Unit (Bool × String) :=
  if v.truthy = false then Except.ok (false, "empty_name")
  else
    match v with
    | JVal.jstr s => Except.ok (validate_name s)
    | _ => Except.error ()

/-- validate_command applied to a raw JSON field (security.py line 183),
with the same truthiness and AttributeError behaviour. -/
def validate_command_j (fs : FileSystem) (v : JVal) : Except Unit (Bool × String) :=
  if v.truthy = false then Except.ok (false, "empty_command")
  else
    match v with
    | JVal.jstr s => Except.ok (validate_command fs s)
    | _ => Except.error ()

/-- validate_icon_path applied to a raw JSON field (security.py line 191,
reached only for truthy values): a truthy non-string raises at
path.startswith. -/
def validate_icon_path_j (fs : FileSystem) (v : JVal) : Except Unit (Bool × String) :=
  match v with
  | JVal.jstr s => Except.ok (validate_icon_path fs s)
  | _ => if v.truthy then Except.error () else Except.ok (true, "OK")

/-- The per-item loop of security.py sanitize_json_import (lines 167-201):
returns the sanitized records together with the number of per-item
errors, or Except.error when an item raises.  A failed name or command
validation drops the item; an invalid icon path only clears the icon
field. -/
def sanitize_items (fs : FileSystem) : List JVal → Except Unit (List JVal × Nat)
  | [] => Except.ok ([], 0)
  | item :: rest =>
    match item with
    | JVal.jobj fields =>
      let name := jgetD fields "name" (JVal.jstr "")
      let command := jgetD fields "command" (JVal.jstr "")
      let target_type := jgetD fields "target_type" (JVal.jstr "")
      match validate_name_j name with
      | Except.error e => Except.error e
      | Except.ok (false, _) => (sanitize_items fs rest).map (fun p => (p.1, p.2 + 1))
      | Except.ok (true, _) =>
        match validate_command_j fs command with
        | Except.error e => Except.error e
        | Except.ok (false, _) => (sanitize_items fs rest).map (fun p => (p.1, p.2 + 1))
        | Except.ok (true, _) =>
          let icon0 := jgetD fields "icon_path" (JVal.jstr "")
          match (if icon0.truthy then
                   (validate_icon_path_j fs icon0).map
                     (fun r => if r.1 then (icon0, 0) else (JVal.jstr "", 1))
                 else Except.ok (icon0, 0)) with
          | Except.error e => Except.error e
          | Except.ok (icon1, extraErr) =>
            (sanitize_items fs rest).map (fun p =>
              (JVal.jobj [("name", name), ("command", command),
                          ("target_type", target_type), ("icon_path", icon1)] :: p.1,
               p.2 + extraErr))
    | _ => (sanitize_items fs rest).map (fun p => (p.1, p.2 + 1))

/-- security.py sanitize_json_import (lines 140-213): structural checks on
the batch, then the per-item loop.  Except.error models an uncaught
exception escaping to the caller; messages are abbreviated tags. -/
def sanitize_json_import (fs : FileSystem) (data : JVal) : Except Unit (Bool × String × JVal) :=
  match data with
  | JVal.jobj fields =>
    match jget fields "shortcuts" with
    | none => Except.ok (false, "missing_shortcuts_key", JVal.jobj [])
    | some sv =>
      match sv with
      | JVal.jarr shortcuts =>
        if shortcuts.length > AppConfig.MAX_IMPORT_COUNT then
          Except.ok (false, "too_many_items", JVal.jobj [])
        else
          (sanitize_items fs shortcuts).map (fun p =>
            let result := JVal.jobj
              [("shortcuts", JVal.jarr p.1),
               ("version", jgetD fields "version" (JVal.jstr "")),
               ("export_date", jgetD fields "export_date" (JVal.jstr ""))]
            if p.2 > 0 then (true, "imported_with_errors", result)
            else (true, "imported", result))
      | _ => Except.ok (false, "shortcuts_not_list", JVal.jobj [])
  | _ => Except.ok (false, "invalid_json", JVal.jobj [])

/-- The structural (batch-level) checks of sanitize_json_import: true when
the input is rejected wholesale. -/
def struct_fail (data : JVal) : Bool :=
  match data with
  | JVal.jobj fields =>
    match jget fields "shortcuts" with
    | some (JVal.jarr l) => decide (l.length > AppConfig.MAX_IMPORT_COUNT)
    | some _ => true
    | none => true
  | _ => true

lemma lookupChild_replaceChild (cs : List (String × RegTree)) (s : String) (c t : RegTree)
    (h : lookupChild cs s = some c) : lookupChild (replaceChild cs s t) s = some t := by
  induction cs with
  | nil => simp [lookupChild] at h
  | cons hd rest ih =>
    obtain ⟨n, u⟩ := hd
    by_cases hn : n = s
    · simp [lookupChild, replaceChild, hn]
    · simp only [lookupChild, replaceChild, if_neg hn] at h ⊢
      exact ih h

lemma lookupChild_append (cs : List (String × RegTree)) (s : String) (x : RegTree)
    (h : lookupChild cs s = none) : lookupChild (cs ++ [(s, x)]) s = some x := by
  induction cs with
  | nil => simp [lookupChild]
  | cons hd rest ih =>
    obtain ⟨n, u⟩ := hd
    by_cases hn : n = s
    · simp [lookupChild, hn] at h
    · simp only [List.cons_append, lookupChild, if_neg hn] at h ⊢
      exact ih h

lemma lookupVal_setVal (vs : List (String × RegValue)) (n : String) (v : RegValue) :
    lookupVal (setVal vs n v) n = some v := by
  induction vs with
  | nil => simp [setVal, lookupVal]
  | cons hd rest ih =>
    obtain ⟨m, w⟩ := hd
    by_cases hm : m = n
    · simp [setVal, hm, lookupVal]
    · simp only [setVal, if_neg hm, lookupVal, ih]

lemma getKey_createKey (p : List String) :
    ∀ t : RegTree, (getKey (createKey t p) p).isSome := by
  induction p with
  | nil => intro t; simp [createKey, getKey]
  | cons s rest ih =>
    intro t
    obtain ⟨vs, cs⟩ := t
    cases hc : lookupChild cs s with
    | some c =>
      have h2 : lookupChild (replaceChild cs s (createKey c rest)) s
          = some (createKey c rest) := lookupChild_replaceChild _ _ _ _ hc
      simp only [createKey, RegTree.children, hc, getKey, h2]
      exact ih c
    | none =>
      have h2 : lookupChild (cs ++ [(s, createKey (RegTree.node [] []) rest)]) s
          = some (createKey (RegTree.node [] []) rest) := lookupChild_append _ _ _ hc
      simp only [createKey, RegTree.children, hc, getKey, h2]
      exact ih _

lemma queryValue_setValue (p : List String) :
    ∀ (t : RegTree) (n : String) (v : RegValue), (getKey t p).isSome →
      queryValue (setValue t p n v) p n = some v := by
  induction p with
  | nil =>
    intro t n v _
    simp [setValue, queryValue, getKey, RegTree.values, lookupVal_setVal]
  | cons s rest ih =>
    intro t n v hsome
    obtain ⟨vs, cs⟩ := t
    cases hc : lookupChild cs s with
    | none => simp [getKey, RegTree.children, hc] at hsome
    | some c =>
      have hrec : (getKey c rest).isSome := by
        simpa [getKey, RegTree.children, hc] using hsome
      have h2 : lookupChild (replaceChild cs s (setValue c rest n v)) s
          = some (setValue c rest n v) := lookupChild_replaceChild _ _ _ _ hc
      have hq : queryValue (setValue c rest n v) rest n = some v := ih c n v hrec
      simp only [setValue, RegTree.children, hc, queryValue, getKey, h2] at hq ⊢
      exact hq

lemma conflict_after_mutation (reg : RegTree) (name command target_type icon_path : String) :
    check_registry_conflict (apply_mutation reg name command target_type icon_path)
        name target_type = (true, some command) := by
  unfold check_registry_conflict apply_mutation
  have hpath : get_registry_base_path target_type ++ [name, "command"]
      = (get_registry_base_path target_type ++ [name]) ++ ["command"] := by simp
  rw [hpath]
  have h1 : (getKey
      (createKey
        (if icon_path ≠ "" then
          setValue (createKey reg (get_registry_base_path target_type ++ [name]))
            (get_registry_base_path target_type ++ [name]) "Icon" ⟨icon_path, 1⟩
         else createKey reg (get_registry_base_path target_type ++ [name]))
        ((get_registry_base_path target_type ++ [name]) ++ ["command"]))
      ((get_registry_base_path target_type ++ [name]) ++ ["command"])).isSome :=
    getKey_createKey _ _
  rw [queryValue_setValue _ _ _ _ h1]

lemma apply_ok_elim (benv : BackupEnv) (saveOk : Bool) (fs : FileSystem) (reg : RegTree)
    (bks : List (String × RegistryKeyBackup)) (hasDb : Bool) (n c tt ic : String)
    (h1 : (apply_shortcut benv saveOk fs reg bks hasDb n c tt ic).ok = true) :
    (validate_name n).1 = true ∧ (validate_command fs c).1 = true ∧
    ¬(ic ≠ "" ∧ (validate_icon_path fs ic).1 = false) ∧
    (check_registry_conflict reg n tt).1 = false ∧
    apply_shortcut benv saveOk fs reg bks hasDb n c tt ic
      = ⟨true, "applied", apply_mutation reg n c tt ic,
         apply_backups benv saveOk reg bks hasDb n tt⟩ := by
  unfold apply_shortcut at h1 ⊢
  split_ifs at h1 ⊢ with h2 h3 h4 h5
  exact ⟨by simpa using h2, by simpa using h3, h4, by simpa using h5, rfl⟩

lemma pySplitAux_eq_nil_of_all_space :
    ∀ s : List Char, s.all pyIsSpace = true → pySplitAux s [] = [] := by
  intro s h
  induction s with
  | nil => rfl
  | cons c rest ih =>
    simp only [List.all_cons, Bool.and_eq_true] at h
    simp only [pySplitAux, h.1, List.isEmpty, if_true]
    exact ih h.2

lemma pySplit_eq_nil_of_all_space (s : List Char) (h : s.all pyIsSpace = true) :
    pySplit s = [] :=
  pySplitAux_eq_nil_of_all_space s h

lemma dropWhile_eq_nil_of_all {α : Type} (p : α → Bool) :
    ∀ l : List α, l.all p = true → l.dropWhile p = [] := by
  intro l h
  induction l with
  | nil => rfl
  | cons a rest ih =>
    simp only [List.all_cons, Bool.and_eq_true] at h
    simp only [List.dropWhile_cons, h.1, if_true]
    exact ih h.2

lemma stripQuotes_all_quotes (tok : List Char) (h : tok.all (fun c => c == '"') = true) :
    stripQuotes tok = [] := by
  unfold stripQuotes
  rw [dropWhile_eq_nil_of_all _ tok h]
  rfl

/-- A filesystem on which nothing exists (concrete test environment). -/
def fs0 : FileSystem := ⟨fun _ => false, fun _ => none⟩

/-- A healthy backup environment with a fixed clock. -/
def benv0 : BackupEnv := ⟨"2025-01-03T00:00:00", fun _ => false⟩

/-- A backup environment in which every key read fails with a generic
backend error. -/
def benvFail : BackupEnv := ⟨"2025-01-03T00:00:00", fun _ => true⟩

/-- An empty HKEY_CURRENT_USER hive. -/
def reg0 : RegTree := RegTree.node [] []

/-- C2: the claim states that backup_registry_key never returns an absent
result and that any backend error other than a missing key degrades to an
empty backup.  In the source the generic except branch returns None, so
with a failing backend the snapshot is absent. -/
theorem backup_backend_error_returns_none_cex :
    backup_registry_key benvFail reg0 ["Software", "Classes", "*", "shell", "X"] = none := rfl

/-- C2 (amended): on a missing key the snapshot is a well-formed empty
backup carrying the requested path, an empty values mapping and the
clock reading, while any other backend error makes backup_registry_key
return none (after logging a warning) instead of an empty backup. -/
theorem backup_snapshot_behavior (benv : BackupEnv) (reg : RegTree) (p : List String) :
    (benv.openFails p = false → getKey reg p = none →
       backup_registry_key benv reg p = some ⟨p, [], benv.now⟩)
    ∧ (benv.openFails p = true → backup_registry_key benv reg p = none) := by
  constructor
  · intro h1 h2
    simp [backup_registry_key, h1, h2]
  · intro h1
    simp [backup_registry_key, h1]

/-- C2 witness: both branches of backup_snapshot_behavior at concrete
inputs. -/
theorem backup_snapshot_behavior_witness :
    backup_registry_key benv0 reg0 ["Software"]
      = some ⟨["Software"], [], "2025-01-03T00:00:00"⟩
    ∧ backup_registry_key benvFail reg0 ["Software"] = none :=
  ⟨(backup_snapshot_behavior benv0 reg0 ["Software"]).1 rfl rfl,
   (backup_snapshot_behavior benvFail reg0 ["Software"]).2 rfl⟩

/-- C4: one update_system_applied call on a matching row adds exactly 1 to
apply_count when the flag is set to true (in particular on a transition
from not applied), leaves apply_count unchanged and clears the flag when
set to false, never decreases apply_count, and leaves other rows
untouched. -/
theorem apply_count_invariant (db : List ShortcutRow) (sid : Nat) (b : Bool) (i : Nat)
    (r r2 : ShortcutRow) (hr : db[i]? = some r)
    (hr2 : (update_system_applied db sid b)[i]? = some r2) :
    (r.id = sid → b = true → r.is_system_applied = 0 →
       r2.apply_count = r.apply_count + 1 ∧ r2.is_system_applied = 1)
    ∧ (r.id = sid → b = false →
       r2.apply_count = r.apply_count ∧ r2.is_system_applied = 0)
    ∧ r.apply_count ≤ r2.apply_count
    ∧ (r.id ≠ sid → r2 = r) := by
  unfold update_system_applied at hr2
  rw [List.getElem?_map, hr] at hr2
  simp only [Option.map_some'] at hr2
  have hf : (if r.id = sid then
      { r with is_system_applied := if b then 1 else 0,
               apply_count := r.apply_count + (if b then 1 else 0) } else r) = r2 := by
    injection hr2
  refine ⟨?_, ?_, ?_, ?_⟩
  · intro h1 hb _
    subst hb
    rw [if_pos h1] at hf
    rw [← hf]
    simp
  · intro h1 hb
    subst hb
    rw [if_pos h1] at hf
    rw [← hf]
    simp
  · by_cases h1 : r.id = sid
    · rw [if_pos h1] at hf
      rw [← hf]
      cases b <;> simp
    · rw [if_neg h1] at hf
      rw [← hf]
  · intro h1
    rw [if_neg h1] at hf
    exact hf.symm

/-- A registered, not yet applied shortcut row. -/
def row0 : ShortcutRow := ⟨1, "A", "notepad.exe", "all_files", "", 1, 0, 0⟩

/-- row0 after update_system_applied with applied = true. -/
def row1 : ShortcutRow := ⟨1, "A", "notepad.exe", "all_files", "", 1, 1, 1⟩

/-- C4 witness: applying row0 transitions the flag and adds exactly 1. -/
theorem apply_count_invariant_witness :
    row1.apply_count = row0.apply_count + 1 ∧ row1.is_system_applied = 1 :=
  (apply_count_invariant [row0] 1 true 0 row0 row1 rfl rfl).1 rfl rfl rfl

/-- C7: removing a shortcut whose key does not exist under the resolved
base path reports success and leaves the registry unchanged, a second
identical Remove also reports success, and at the level of the recursive
delete a vanished key is a successfully deleted subtree for any fuel. -/
theorem remove_missing_idempotent (reg : RegTree) (name tt : String)
    (h : getKey reg (get_registry_base_path tt ++ [name]) = none) :
    remove_shortcut reg name tt = (true, "removed", reg)
    ∧ remove_shortcut (remove_shortcut reg name tt).2.2 name tt = (true, "removed", reg)
    ∧ ∀ (fuel : Nat) (reg2 : RegTree) (p : List String),
        getKey reg2 p = none → delRec (fuel + 1) reg2 p = (true, reg2) := by
  have hgen : ∀ (fuel : Nat) (reg2 : RegTree) (p : List String),
      getKey reg2 p = none → delRec (fuel + 1) reg2 p = (true, reg2) := by
    intro fuel reg2 p hp
    unfold delRec
    rw [hp]
  have h1 : remove_shortcut reg name tt = (true, "removed", reg) := by
    simp only [remove_shortcut]
    rw [hgen _ _ _ h]
    simp
  refine ⟨h1, ?_, hgen⟩
  rw [h1]
  exact h1

/-- C7 witness: double removal of a nonexistent shortcut from the empty
hive. -/
theorem remove_missing_idempotent_witness :
    remove_shortcut reg0 "X" "folder" = (true, "removed", reg0)
    ∧ remove_shortcut (remove_shortcut reg0 "X" "folder").2.2 "X" "folder"
        = (true, "removed", reg0) :=
  ⟨(remove_missing_idempotent reg0 "X" "folder" rfl).1,
   (remove_missing_idempotent reg0 "X" "folder" rfl).2.1⟩

/-- C10: toggle_active on an id that matches no row reports True and is a
silent no-op (the UPDATE matches zero rows). -/
theorem toggle_active_missing_id (db : List ShortcutRow) (sid : Nat)
    (h : ∀ r ∈ db, r.id ≠ sid) :
    toggle_active db sid = (true, db) := by
  have hmap : ∀ l : List ShortcutRow, (∀ r ∈ l, r.id ≠ sid) →
      l.map (fun r => if r.id = sid then { r with is_active := 1 - r.is_active } else r) = l := by
    intro l hl
    induction l with
    | nil => rfl
    | cons a rest ih =>
      simp only [List.map_cons]
      rw [if_neg (hl a (List.mem_cons_self a rest)),
          ih (fun r hr => hl r (List.mem_cons_of_mem a hr))]
  unfold toggle_active
  rw [hmap db h]

/-- A row whose id differs from the toggled id. -/
def row2 : ShortcutRow := ⟨2, "B", "calc.exe", "folder", "", 1, 0, 0⟩

/-- C10 witness: toggling id 1 in a table that only holds id 2 returns
True and changes nothing. -/
theorem toggle_active_missing_id_witness :
    toggle_active [row2] 1 = (true, [row2]) :=
  toggle_active_missing_id [row2] 1 (by decide)

/-- C5: after a successful Apply, every later Apply that sees a conflict
for the same name and scope aborts with the already-exists failure and
leaves registry and ledger untouched; in particular re-applying the same
proposal immediately after the first success fails that way and changes
nothing. -/
theorem apply_conflict_aborts (benv : BackupEnv) (saveOk : Bool) (fs : FileSystem)
    (reg : RegTree) (bks : List (String × RegistryKeyBackup)) (hasDb : Bool)
    (n c tt ic : String)
    (h1 : (apply_shortcut benv saveOk fs reg bks hasDb n c tt ic).ok = true) :
    (∀ (reg2 : RegTree) (bks2 : List (String × RegistryKeyBackup)),
        (check_registry_conflict reg2 n tt).1 = true →
        apply_shortcut benv saveOk fs reg2 bks2 hasDb n c tt ic
          = ⟨false, "already_exists", reg2, bks2⟩)
    ∧ apply_shortcut benv saveOk fs (apply_shortcut benv saveOk fs reg bks hasDb n c tt ic).reg
        (apply_shortcut benv saveOk fs reg bks hasDb n c tt ic).backups hasDb n c tt ic
      = ⟨false, "already_exists",
         (apply_shortcut benv saveOk fs reg bks hasDb n c tt ic).reg,
         (apply_shortcut benv saveOk fs reg bks hasDb n c tt ic).backups⟩ := by
  obtain ⟨hn, hc, hi, hconf, hshape⟩ :=
    apply_ok_elim benv saveOk fs reg bks hasDb n c tt ic h1
  have habort : ∀ (reg2 : RegTree) (bks2 : List (String × RegistryKeyBackup)),
      (check_registry_conflict reg2 n tt).1 = true →
      apply_shortcut benv saveOk fs reg2 bks2 hasDb n c tt ic
        = ⟨false, "already_exists", reg2, bks2⟩ := by
    intro reg2 bks2 hc2
    unfold apply_shortcut
    rw [hn, hc, hc2, if_neg hi]
    simp
  refine ⟨habort, ?_⟩
  rw [hshape]
  exact habort (apply_mutation reg n c tt ic) (apply_backups benv saveOk reg bks hasDb n tt)
    (by rw [conflict_after_mutation])

/-- C5 witness: a concrete successful Apply followed by the same Apply
again. -/
theorem apply_conflict_aborts_witness :
    apply_shortcut benv0 true fs0
        (apply_shortcut benv0 true fs0 reg0 [] true "Test" "notepad.exe" "all_files" "").reg
        (apply_shortcut benv0 true fs0 reg0 [] true "Test" "notepad.exe" "all_files" "").backups
        true "Test" "notepad.exe" "all_files" ""
      = ⟨false, "already_exists",
         (apply_shortcut benv0 true fs0 reg0 [] true "Test" "notepad.exe" "all_files" "").reg,
         (apply_shortcut benv0 true fs0 reg0 [] true "Test" "notepad.exe" "all_files" "").backups⟩ :=
  (apply_conflict_aborts benv0 true fs0 reg0 [] true "Test" "notepad.exe" "all_files" ""
    rfl).2

/-- C6: a successful Apply writes the command under the scope base path,
name, command key, where the conflict inspector reads it back: the
inspector run on the post-Apply registry reports found with exactly the
applied command string. -/
theorem apply_conflict_roundtrip (benv : BackupEnv) (saveOk : Bool) (fs : FileSystem)
    (reg : RegTree) (bks : List (String × RegistryKeyBackup)) (hasDb : Bool)
    (n c tt ic : String)
    (h1 : (apply_shortcut benv saveOk fs reg bks hasDb n c tt ic).ok = true) :
    check_registry_conflict (apply_shortcut benv saveOk fs reg bks hasDb n c tt ic).reg n tt
      = (true, some c) := by
  obtain ⟨_, _, _, _, hshape⟩ := apply_ok_elim benv saveOk fs reg bks hasDb n c tt ic h1
  rw [hshape]
  exact conflict_after_mutation reg n c tt ic

/-- C6 witness: the round trip at a concrete proposal. -/
theorem apply_conflict_roundtrip_witness :
    check_registry_conflict
        (apply_shortcut benv0 true fs0 reg0 [] true "Edit" "vim.exe %1" "folder" "").reg
        "Edit" "folder"
      = (true, some "vim.exe %1") :=
  apply_conflict_roundtrip benv0 true fs0 reg0 [] true "Edit" "vim.exe %1" "folder" "" rfl

/-- C1 counterexample: a shortcut proposal that passes all validations
with no conflict, applied with a ledger whose backup INSERT fails
(saveOk = false, the swallowed exception of save_registry_backup).  The
claim requires the whole Apply to abort with the store unmutated; the
code instead reports success, mutates the registry (the command value
appears), and records no backup. -/
theorem apply_persist_failure_still_mutates_cex :
    (apply_shortcut benv0 false fs0 reg0 [] true "Test" "notepad.exe" "all_files" "").ok = true
    ∧ (apply_shortcut benv0 false fs0 reg0 [] true "Test" "notepad.exe" "all_files" "").backups
        = []
    ∧ queryValue (apply_shortcut benv0 false fs0 reg0 [] true "Test" "notepad.exe" "all_files" "").reg
        ["Software", "Classes", "*", "shell", "Test", "command"] "" = some ⟨"notepad.exe", 1⟩
    ∧ queryValue reg0 ["Software", "Classes", "*", "shell", "Test", "command"] "" = none :=
  ⟨rfl, rfl, rfl, rfl⟩

/-- C1 (amended): for a proposal that passes validation with no conflict,
the snapshot is taken from the pre-mutation registry and handed to the
ledger before any mutation; but a failure to persist the backup is logged
and swallowed, and the Apply proceeds to mutate the store and report
success (fail open), leaving no backup recorded. -/
theorem apply_backup_fail_open (benv : BackupEnv) (fs : FileSystem) (reg : RegTree)
    (bks : List (String × RegistryKeyBackup)) (n c tt ic : String)
    (hn : (validate_name n).1 = true) (hc : (validate_command fs c).1 = true)
    (hi : ¬(ic ≠ "" ∧ (validate_icon_path fs ic).1 = false))
    (hconf : (check_registry_conflict reg n tt).1 = false) :
    apply_shortcut benv false fs reg bks true n c tt ic
      = ⟨true, "applied", apply_mutation reg n c tt ic, bks⟩
    ∧ ∀ bd, backup_registry_key benv reg (get_registry_base_path tt ++ [n]) = some bd →
        apply_shortcut benv true fs reg bks true n c tt ic
          = ⟨true, "applied", apply_mutation reg n c tt ic, bks ++ [(n, bd)]⟩ := by
  constructor
  · unfold apply_shortcut
    rw [hn, hc, hconf, if_neg hi]
    simp only [Bool.true_eq_false, if_false, if_true]
    unfold apply_backups save_registry_backup
    cases backup_registry_key benv reg (get_registry_base_path tt ++ [n]) <;> simp
  · intro bd hbd
    unfold apply_shortcut
    rw [hn, hc, hconf, if_neg hi]
    simp only [Bool.true_eq_false, if_false, if_true]
    unfold apply_backups save_registry_backup
    rw [hbd]
    simp

/-- C1 witness: the amended behaviour at a concrete proposal; the failed
persist leaves the ledger empty while the apply still succeeds. -/
theorem apply_backup_fail_open_witness :
    apply_shortcut benv0 false fs0 reg0 [] true "Test" "notepad.exe" "all_files" ""
      = ⟨true, "applied", apply_mutation reg0 "Test" "notepad.exe" "all_files" "", []⟩ :=
  (apply_backup_fail_open benv0 fs0 reg0 [] "Test" "notepad.exe" "all_files" ""
    rfl rfl (by simp) rfl).1

/-- C3 counterexample: a command whose first token has a whitelisted base
name and which matches no dangerous pattern, yet validate_command rejects
it, because the null-byte check runs before the whitelist stage. -/
theorem validate_whitelisted_nullbyte_cex :
    first_token_exe_name "notepad.exe \x00" = some "notepad.exe"
    ∧ "notepad.exe" ∈ SAFE_EXECUTABLES
    ∧ dangerous_command "notepad.exe \x00" = false
    ∧ validate_command fs0 "notepad.exe \x00" = (false, "null_byte") := by
  refine ⟨rfl, ?_, rfl, rfl⟩
  simp [SAFE_EXECUTABLES]

/-- C3 (amended): a command whose first token's quote-stripped lowercased
base name is whitelisted is accepted regardless of the remaining
arguments, provided it also passes the length, null-byte,
dangerous-pattern and network-prefix checks that run first. -/
theorem validate_whitelisted_ok (fs : FileSystem) (command exe : String)
    (hlen : ¬ command.length > AppConfig.MAX_COMMAND_LENGTH)
    (hnull : has_null command = false)
    (hdang : dangerous_command command = false)
    (hnet : is_network_path command = false)
    (htok : first_token_exe_name command = some exe)
    (hwl : exe ∈ SAFE_EXECUTABLES) :
    validate_command fs command = (true, "OK") := by
  have hne : command.toList.all pyIsSpace = false := by
    cases hall : command.toList.all pyIsSpace
    · rfl
    · exfalso
      unfold first_token_exe_name at htok
      rw [pySplit_eq_nil_of_all_space _ hall] at htok
      simp at htok
  unfold first_token_exe_name at htok
  cases hps : pySplit command.toList with
  | nil =>
    rw [hps] at htok
    simp at htok
  | cons tok ts =>
    rw [hps] at htok
    simp only [Option.some.injEq] at htok
    have hany : SAFE_EXECUTABLES.any (fun safe => exe_name_of_token tok == safe) = true := by
      refine List.any_eq_true.mpr ⟨exe, hwl, ?_⟩
      rw [htok]
      exact beq_self_eq_true exe
    have hnotcond : ¬(exe_name_of_token tok ≠ ""
        ∧ SAFE_EXECUTABLES.any (fun safe => exe_name_of_token tok == safe) = false) := by
      intro hcond
      rw [hany] at hcond
      exact absurd hcond.2 (by simp)
    simp only [validate_command, hne, hnull, hdang, hnet, Bool.false_eq_true, if_false, hps]
    rw [if_neg hlen, if_neg hnotcond]

/-- C3 witness: a whitelisted command with extra arguments is accepted. -/
theorem validate_whitelisted_ok_witness :
    validate_command fs0 "notepad.exe report.txt extra" = (true, "OK") :=
  validate_whitelisted_ok fs0 "notepad.exe report.txt extra" "notepad.exe"
    (by decide) rfl rfl rfl rfl (by simp [SAFE_EXECUTABLES])

/-- C9: a command that passes the emptiness, length, null-byte,
dangerous-pattern and network-prefix checks and whose first token
consists only of double quotes is accepted: the quote-stripped base name
is empty, so the whitelist and existence stages are skipped entirely. -/
theorem validate_allquotes_ok (fs : FileSystem) (command : String) (tok : List Char)
    (ts : List (List Char))
    (hlen : ¬ command.length > AppConfig.MAX_COMMAND_LENGTH)
    (hnull : has_null command = false)
    (hdang : dangerous_command command = false)
    (hnet : is_network_path command = false)
    (hsplit : pySplit command.toList = tok :: ts)
    (hq : tok.all (fun c => c == '"') = true) :
    validate_command fs command = (true, "OK") := by
  have hne : command.toList.all pyIsSpace = false := by
    cases hall : command.toList.all pyIsSpace
    · rfl
    · rw [pySplit_eq_nil_of_all_space _ hall] at hsplit
      exact absurd hsplit (by simp)
  have hexe : exe_name_of_token tok = "" := by
    unfold exe_name_of_token
    rw [stripQuotes_all_quotes tok hq]
    rfl
  have hnotcond : ¬(exe_name_of_token tok ≠ ""
      ∧ SAFE_EXECUTABLES.any (fun safe => exe_name_of_token tok == safe) = false) :=
    fun hcond => hcond.1 hexe
  simp only [validate_command, hne, hnull, hdang, hnet, Bool.false_eq_true, if_false, hsplit]
  rw [if_neg hlen, if_neg hnotcond]

/-- C9 witness: the two-quote command is accepted. -/
theorem validate_allquotes_ok_witness :
    validate_command fs0 "\"\"" = (true, "OK") :=
  validate_allquotes_ok fs0 "\"\"" ['"', '"'] [] (by decide) rfl rfl rfl rfl rfl

/-- A structurally valid batch whose single item has a truthy non-string
name field. -/
def jd_bad : JVal := JVal.jobj [("shortcuts", JVal.jarr [JVal.jobj [("name", JVal.jnum 1)]])]

/-- C8 counterexample: the batch passes every structural check, yet
sanitize_json_import does not return ok with the item dropped: the truthy
non-string name raises AttributeError at name.strip(), so the call fails
with an exception instead of returning at all. -/
theorem sanitize_nonstring_field_raises_cex :
    struct_fail jd_bad = false
    ∧ sanitize_json_import fs0 jd_bad = Except.error () := ⟨rfl, rfl⟩

/-- C8 (amended): sanitize_json_import returns ok-false with an empty
result exactly on a structural failure (not a mapping with a shortcuts
list, or more than the configured maximum of items); when the structural
checks hold and no item raises, it returns ok-true with exactly the
sanitized records of the per-item loop as the clean batch, the items
failing name or command validation dropped from it, even if every item
was dropped; but an item whose truthy name, command or icon field is not
a string makes the call raise instead of returning. -/
theorem sanitize_ok_iff_structural (fs : FileSystem) (data : JVal) :
    (struct_fail data = true →
       ∃ m, sanitize_json_import fs data = Except.ok (false, m, JVal.jobj []))
    ∧ (struct_fail data = false →
       ∀ ok msg out, sanitize_json_import fs data = Except.ok (ok, msg, out) → ok = true)
    ∧ (∀ (fields : List (String × JVal)) (l : List JVal) (s : List JVal) (n : Nat),
       data = JVal.jobj fields →
       jget fields "shortcuts" = some (JVal.jarr l) →
       ¬ l.length > AppConfig.MAX_IMPORT_COUNT →
       sanitize_items fs l = Except.ok (s, n) →
       sanitize_json_import fs data
         = Except.ok (true, (if n > 0 then "imported_with_errors" else "imported"),
             JVal.jobj [("shortcuts", JVal.jarr s),
                        ("version", jgetD fields "version" (JVal.jstr "")),
                        ("export_date", jgetD fields "export_date" (JVal.jstr ""))])) := by
  refine ⟨?_, ?_, ?_⟩
  · intro hsf
    cases data with
    | jstr s => exact ⟨"invalid_json", rfl⟩
    | jnum n => exact ⟨"invalid_json", rfl⟩
    | jbool b => exact ⟨"invalid_json", rfl⟩
    | jnull => exact ⟨"invalid_json", rfl⟩
    | jarr l => exact ⟨"invalid_json", rfl⟩
    | jobj fields =>
      cases hg : jget fields "shortcuts" with
      | none =>
        exact ⟨"missing_shortcuts_key", by simp [sanitize_json_import, hg]⟩
      | some sv =>
        cases sv with
        | jarr l =>
          have hlen : l.length > AppConfig.MAX_IMPORT_COUNT := by
            have h2 := hsf
            simp only [struct_fail, hg] at h2
            exact of_decide_eq_true h2
          exact ⟨"too_many_items", by simp [sanitize_json_import, hg, hlen]⟩
        | jstr s => exact ⟨"shortcuts_not_list", by simp [sanitize_json_import, hg]⟩
        | jnum n => exact ⟨"shortcuts_not_list", by simp [sanitize_json_import, hg]⟩
        | jbool b => exact ⟨"shortcuts_not_list", by simp [sanitize_json_import, hg]⟩
        | jnull => exact ⟨"shortcuts_not_list", by simp [sanitize_json_import, hg]⟩
        | jobj l2 => exact ⟨"shortcuts_not_list", by simp [sanitize_json_import, hg]⟩
  · intro hsf ok msg out hok
    cases data with
    | jstr s => simp [struct_fail] at hsf
    | jnum n => simp [struct_fail] at hsf
    | jbool b => simp [struct_fail] at hsf
    | jnull => simp [struct_fail] at hsf
    | jarr l => simp [struct_fail] at hsf
    | jobj fields =>
      cases hg : jget fields "shortcuts" with
      | none => simp [struct_fail, hg] at hsf
      | some sv =>
        cases sv with
        | jarr l =>
          have hlen : ¬ l.length > AppConfig.MAX_IMPORT_COUNT := by
            simp only [struct_fail, hg] at hsf
            exact of_decide_eq_false hsf
          simp only [sanitize_json_import, hg, if_neg hlen] at hok
          cases hsi : sanitize_items fs l with
          | error e =>
            rw [hsi] at hok
            simp [Except.map] at hok
          | ok p =>
            rw [hsi] at hok
            simp only [Except.map, Except.ok.injEq] at hok
            by_cases hp : p.2 > 0
            · rw [if_pos hp] at hok
              exact (congrArg Prod.fst hok).symm
            · rw [if_neg hp] at hok
              exact (congrArg Prod.fst hok).symm
        | jstr s => simp [struct_fail, hg] at hsf
        | jnum n => simp [struct_fail, hg] at hsf
        | jbool b => simp [struct_fail, hg] at hsf
        | jnull => simp [struct_fail, hg] at hsf
        | jobj l2 => simp [struct_fail, hg] at hsf
  · intro fields l s n hdata hg hlen hsi
    subst hdata
    simp only [sanitize_json_import, hg, if_neg hlen]
    rw [hsi]
    by_cases hn : n > 0
    · simp [Except.map, hn]
    · simp [Except.map, hn]

/-- A record item that passes name and command validation. -/
def jgood : JVal :=
  JVal.jobj [("name", JVal.jstr "A"), ("command", JVal.jstr "notepad.exe %1"),
             ("target_type", JVal.jstr "all_files")]

/-- jgood as it appears in the clean batch (icon field filled in). -/
def jgood_clean : JVal :=
  JVal.jobj [("name", JVal.jstr "A"), ("command", JVal.jstr "notepad.exe %1"),
             ("target_type", JVal.jstr "all_files"), ("icon_path", JVal.jstr "")]

/-- A record item whose empty name fails validation without raising. -/
def jbad : JVal := JVal.jobj [("name", JVal.jstr "")]

/-- A structurally valid two-item batch: one valid item, one item that
fails name validation. -/
def jd_mix : JVal := JVal.jobj [("shortcuts", JVal.jarr [jgood, jbad])]

/-- C8 witness: both directions at concrete batches: the empty mapping is
rejected wholesale with no partial output, and the mixed batch really
returns ok-true with the valid item kept and the failing item dropped
from the clean batch. -/
theorem sanitize_ok_iff_structural_witness :
    (∃ m, sanitize_json_import fs0 (JVal.jobj []) = Except.ok (false, m, JVal.jobj []))
    ∧ sanitize_json_import fs0 jd_mix
        = Except.ok (true, "imported_with_errors",
            JVal.jobj [("shortcuts", JVal.jarr [jgood_clean]),
                       ("version", JVal.jstr ""), ("export_date", JVal.jstr "")]) :=
  ⟨(sanitize_ok_iff_structural fs0 (JVal.jobj [])).1 rfl,
   (sanitize_ok_iff_structural fs0 jd_mix).2.2 [("shortcuts", JVal.jarr [jgood, jbad])]
     [jgood, jbad] [jgood_clean] 1 rfl rfl (by decide) rfl⟩
